import Mathlib

/-!
# Verification of the ectuner optimization core (src/ectuner.py)

Shallow embedding of the tuning tool's core: Python dicts become association
lists over `String` keys (first-match lookup, insertion order preserved),
Python floats become `ℚ` — except where the code explicitly handles IEEE NaN
(the bias table consumed through `math.isnan`), where a float is `Option ℚ`
with `none` playing the role of NaN.  Python lookups that can raise
(`KeyError` on a missing dict key, `IndexError` on `[0]` of an empty list or
`params[0]` of an empty list) are modelled by `Option`-returning functions.
The divisions of lines 96 and 282 operate on numpy float64 values (`changes`
and `result.x` are numpy arrays), so a zero divisor yields a non-finite
result — inf or NaN with a RuntimeWarning — and never raises; the `F64` type
models those float64 values explicitly, and the ℚ-valued evaluation functions
return `some` exactly for finite-rational results, `none` when the evaluation
either raises on a lookup or is not a finite value.
-/

namespace ECTuner

/-- A Python dict with string keys, as an association list in insertion order. -/
abbrev Dict (α : Type) := List (String × α)

/-- Python dict lookup `d[k]` / membership `k in d`: first entry with key `k`. -/
def dlookup {α : Type} : Dict α → String → Option α
  | [], _ => Option.none
  | (k', v) :: rest, k => if k' = k then some v else dlookup rest k

/-- A Python float: `none` models IEEE NaN (the only non-finite value the
code manipulates, via `np.nan` / `math.isnan`). -/
abbrev Flt := Option ℚ

/-- IEEE subtraction on floats-with-NaN: NaN propagates. -/
def Flt.sub : Flt → Flt → Flt
  | some a, some b => some (a - b)
  | _, _ => Option.none

/-- Two-level nested dict: season → region → value. -/
abbrev Table2 (α : Type) := Dict (Dict α)

/-- Three-level nested dict: variable → season → region → value. -/
abbrev Table3 (α : Type) := Dict (Dict (Dict α))

/-- Triple lookup `t[f][s][r]` on a three-level table (none = some level missing). -/
def tget {α : Type} (t : Table3 α) (f s r : String) : Option α :=
  (dlookup t f).bind fun a => (dlookup a s).bind fun b => dlookup b r

/-- The innermost loop of `compute_difference` (lines 64-66): keep each
subsubkey of the base row that also exists in the reference row, storing
`subsubvalue - reference[key][subkey][subsubkey]`. -/
def diff_inner (refsk : Dict Flt) (subvalue : Dict Flt) : Dict Flt :=
  subvalue.filterMap fun sskv =>
    (dlookup refsk sskv.1).map fun refv => (sskv.1, Flt.sub sskv.2 refv)

/-- The middle loop of `compute_difference` (lines 61-66): a season entry is
created exactly when `key in reference and subkey in reference[key]` (line 62),
and holds the innermost comparison against `reference[key][subkey]`. -/
def diff_mid (reference : Table3 Flt) (key : String) (value : Table2 Flt) : Table2 Flt :=
  value.filterMap fun skv =>
    ((dlookup reference key).bind fun refk => dlookup refk skv.1).map fun refsk =>
      (skv.1, diff_inner refsk skv.2)

/-- `compute_difference` (src/ectuner.py lines 57-71): simulated minus reference,
built by iterating the base table; `difference[key]` is always created (line 60,
possibly empty), inner entries only when the corresponding reference levels exist. -/
def compute_difference (base reference : Table3 Flt) : Table3 Flt :=
  base.map fun kv => (kv.1, diff_mid reference kv.1 kv.2)

/-- The guard of line 90: `difference.get(fluxname,{}).get(season,{}).get(region, np.nan)`;
`none` is the NaN default (absent at any level) or a stored NaN. -/
def diffGet (difference : Table3 Flt) (f s r : String) : Flt :=
  Option.getD (dlookup (Option.getD (dlookup (Option.getD (dlookup difference f) []) s) []) r) Option.none

/-- `sensitivity[param][fluxname][season][region][0]`: four dict lookups then the
first element of the stored one-element list (none = KeyError / IndexError). -/
def sensLookup (sensitivity : Dict (Table3 (List ℚ))) (param f s r : String) : Option ℚ :=
  (dlookup sensitivity param).bind fun t => (tget t f s r).bind fun c => c.head?

/-- The generator-sum of line 92:
`sum(sensitivity[param][fluxname][season][region][0] * changes[i] for i, param in enumerate(params))`. -/
def flux_change (changes : ℕ → ℚ) (sensitivity : Dict (Table3 (List ℚ)))
    (f s r : String) : ℕ → List String → Option ℚ
  | _, [] => some 0
  | i, param :: rest =>
    (sensLookup sensitivity param f s r).bind fun c =>
      (flux_change changes sensitivity f s r (i + 1) rest).map fun restSum =>
        c * changes i + restSum

/-- One iteration of the triple loop body of `objective_function` (lines 90-94):
skip when the bias is absent/NaN, otherwise accumulate
`weights_flux[f] * weights_region[r] * weights_season[s] * (difference[f][s][r] + flux_change) ** 2`. -/
def flux_step (changes : ℕ → ℚ) (params : List String)
    (sensitivity : Dict (Table3 (List ℚ))) (difference : Table3 Flt)
    (wf ws wr : Dict ℚ) (acc : ℚ) (t : String × String × String) : Option ℚ :=
  match diffGet difference t.1 t.2.1 t.2.2 with
  | Option.none => some acc
  | some d =>
    (flux_change changes sensitivity t.1 t.2.1 t.2.2 0 params).bind fun fc =>
      (dlookup wf t.1).bind fun a =>
        (dlookup wr t.2.2).bind fun b =>
          (dlookup ws t.2.1).bind fun c =>
            some (acc + a * b * c * (d + fc) ^ 2)

/-- The key space the triple loop of lines 87-89 ranges over: every
(fluxname, season, region) of `sensitivity[params[0]]`, in iteration order. -/
def sens_triples (sens0 : Table3 (List ℚ)) : List (String × String × String) :=
  sens0.foldr (fun fkv acc =>
    fkv.2.foldr (fun skv acc2 =>
      skv.2.map (fun rkv => (fkv.1, skv.1, rkv.1)) ++ acc2) [] ++ acc) []

/-- The `total_difference` accumulation of `objective_function` (lines 85-94):
the triple loop over `sensitivity[params[0]]` driving `flux_step`. -/
def flux_term (changes : ℕ → ℚ) (params : List String)
    (sensitivity : Dict (Table3 (List ℚ))) (difference : Table3 Flt)
    (wf ws wr : Dict ℚ) : Option ℚ :=
  params.head?.bind fun p0 =>
    (dlookup sensitivity p0).bind fun sens0 =>
      (sens_triples sens0).foldlM (flux_step changes params sensitivity difference wf ws wr) 0

/-- The list comprehension of line 96, one term per parameter:
`((reference_pars[param] - (values[param] + changes[i])) / reference_pars[param]) ** 2`.
`none` means the term list has no finite-rational value: either a KeyError on a
missing parameter key, or — for a zero reference value — a non-finite float64
term, since the numpy division by zero yields inf/NaN (with a RuntimeWarning,
no raise).  `np_param_terms` below models the float64 values explicitly;
`param_terms_np_agree` shows this function is its finite fragment. -/
def param_terms (changes : ℕ → ℚ) (values reference_pars : Dict ℚ) :
    ℕ → List String → Option (List ℚ)
  | _, [] => some []
  | i, param :: rest =>
    (dlookup reference_pars param).bind fun ref =>
      if ref = 0 then Option.none else
        (dlookup values param).bind fun v =>
          (param_terms changes values reference_pars (i + 1) rest).map fun ts =>
            ((ref - (v + changes i)) / ref) ^ 2 :: ts

/-- `param_difference` of line 96: the sum of the comprehension's terms. -/
def param_difference (changes : ℕ → ℚ) (params : List String)
    (values reference_pars : Dict ℚ) : Option ℚ :=
  (param_terms changes values reference_pars 0 params).map List.sum

/-- `objective_function` (lines 74-100): `total_difference + param_difference * penalty`. -/
def objective_function (changes : ℕ → ℚ) (params : List String)
    (values reference_pars : Dict ℚ) (penalty : ℚ)
    (sensitivity : Dict (Table3 (List ℚ))) (difference : Table3 Flt)
    (weights_flux weights_season weights_region : Dict ℚ) : Option ℚ :=
  (flux_term changes params sensitivity difference weights_flux weights_season weights_region).bind
    fun td => (param_difference changes params values reference_pars).map
      fun pd => td + pd * penalty

/-- `diffmax` built in `__main__` (lines 217-220): `diffmax[params[i]] = vals[i] * inc`. -/
def build_diffmax (params : List String) (vals : List ℚ) (inc : ℚ) : Dict ℚ :=
  (params.zip vals).map fun pv => (pv.1, pv.2 * inc)

/-- The i-th constraint function of line 232:
`lambda x, i=i: diffmax[params[i]] - np.abs(x[i])`. -/
def constraint_fun (diffmax : Dict ℚ) (params : List String) (i : ℕ) (x : ℕ → ℚ) : Option ℚ :=
  (params.get? i).bind fun p => (dlookup diffmax p).map fun m => m - |x i|

/-- A Python scalar value as handled by the CLI layer. -/
inductive PyVal where
  | none
  | int (n : ℤ)
  | float (q : ℚ)
  | str (s : String)
  | bool (b : Bool)
deriving DecidableEq

/-- Python truthiness: `None`, `0`, `0.0`, `""` and `False` are falsy. -/
def truthy : PyVal → Bool
  | .none => false
  | .int n => n != 0
  | .float q => q != 0
  | .str s => s != ""
  | .bool b => b

/-- `get_arg` (lines 135-151): return the parsed attribute unless it is falsy,
in which case return the default. -/
def get_arg (args : String → PyVal) (arg : String) (default : PyVal) : PyVal :=
  if truthy (args arg) then args arg else default

/-- The only conditional abort of `__main__` before the optimization loop
(lines 169-171): exit when the experiment name is falsy.  No check of
parameter reference or current values occurs anywhere before `minimize`
is called on line 249. -/
def main_preopt_abort (exp : PyVal) : Bool := !truthy exp

/-- A numpy float64 value as produced by the divisions of lines 96 and 282:
a finite rational, or one of the non-finite IEEE values inf, -inf, NaN. -/
inductive F64 where
  | fin (q : ℚ)
  | inf
  | ninf
  | nan
deriving DecidableEq

/-- Whether a float64 value is finite. -/
def F64.isFinite : F64 → Bool
  | .fin _ => true
  | _ => false

/-- numpy float64 division of two finite values: a zero divisor emits a
RuntimeWarning and yields ±inf (nonzero numerator) or NaN (0/0); it raises
nothing. -/
def npDiv (a b : ℚ) : F64 :=
  if b = 0 then (if a > 0 then F64.inf else if a < 0 then F64.ninf else F64.nan)
  else F64.fin (a / b)

/-- Squaring a float64: both infinities square to inf, NaN propagates. -/
def F64.sq : F64 → F64
  | .fin q => .fin (q ^ 2)
  | .inf => .inf
  | .ninf => .inf
  | .nan => .nan

/-- IEEE float64 addition: NaN propagates, inf + (-inf) is NaN, an infinity
absorbs finite values. -/
def F64.add : F64 → F64 → F64
  | .fin a, .fin b => .fin (a + b)
  | .nan, _ => .nan
  | _, .nan => .nan
  | .inf, .ninf => .nan
  | .ninf, .inf => .nan
  | .inf, _ => .inf
  | _, .inf => .inf
  | _, _ => .ninf

/-- Line 96 under explicit numpy float64 semantics: dict lookups still raise
(`none`) on a missing key, but the division happens on float64 values, so a
zero reference value yields a non-finite term and evaluation continues. -/
def np_param_terms (changes : ℕ → ℚ) (values reference_pars : Dict ℚ) :
    ℕ → List String → Option (List F64)
  | _, [] => some []
  | i, param :: rest =>
    (dlookup reference_pars param).bind fun ref =>
      (dlookup values param).bind fun v =>
        (np_param_terms changes values reference_pars (i + 1) rest).map fun ts =>
          (npDiv (ref - (v + changes i)) ref).sq :: ts

/-- `param_difference` of line 96 under float64 semantics: Python's `sum`
folds the terms from the left starting at 0. -/
def np_param_difference (changes : ℕ → ℚ) (params : List String)
    (values reference_pars : Dict ℚ) : Option F64 :=
  (np_param_terms changes values reference_pars 0 params).map
    (List.foldl F64.add (F64.fin 0))

/-- The relative-change entry of the report table (line 282):
`optimal_changes[p] / values[p]`; `optimal_changes[p]` is `result.x[i]`, an
np.float64, so a zero current value yields a non-finite quotient printed in
the table (with a RuntimeWarning), not an error. -/
def np_relative_change (change v : ℚ) : F64 := npDiv change v

/-- One step of the spec-side sum for claim C1: each defined-bias triple
contributes `weight_flux * weight_region * weight_season * bias ^ 2`, with no
sensitivity lookup at all. -/
def spec_zero_step (difference : Table3 Flt) (wf ws wr : Dict ℚ)
    (acc : ℚ) (t : String × String × String) : Option ℚ :=
  match diffGet difference t.1 t.2.1 t.2.2 with
  | Option.none => some acc
  | some d =>
    (dlookup wf t.1).bind fun a =>
      (dlookup wr t.2.2).bind fun b =>
        (dlookup ws t.2.1).bind fun c =>
          some (acc + a * b * c * d ^ 2)

/-- Follows the spec's words for claim C1 (§8): "the weighted sum of squared
current biases" over the iterated triples with a defined bias entry. -/
def spec_zero_flux_sum (params : List String) (sensitivity : Dict (Table3 (List ℚ)))
    (difference : Table3 Flt) (wf ws wr : Dict ℚ) : Option ℚ :=
  params.head?.bind fun p0 =>
    (dlookup sensitivity p0).bind fun sens0 =>
      (sens_triples sens0).foldlM (spec_zero_step difference wf ws wr) 0

/-! ## Helper lemmas -/

theorem dlookup_mem {α : Type} {l : Dict α} {k : String} {v : α}
    (h : dlookup l k = some v) : (k, v) ∈ l := by
  induction l with
  | nil => simp [dlookup] at h
  | cons p rest ih =>
    obtain ⟨k', v'⟩ := p
    rw [dlookup] at h
    by_cases hk : k' = k
    · rw [if_pos hk] at h
      subst hk
      obtain rfl : v' = v := by injection h
      exact List.mem_cons_self _ _
    · rw [if_neg hk] at h
      exact List.mem_cons_of_mem _ (ih h)

theorem lookup_diff_inner (refsk : Dict Flt) (subvalue : Dict Flt) (r : String) :
    dlookup (diff_inner refsk subvalue) r
      = (dlookup refsk r).bind fun refv =>
          (dlookup subvalue r).map fun b => Flt.sub b refv := by
  induction subvalue with
  | nil => cases dlookup refsk r <;> simp [diff_inner, dlookup]
  | cons p rest ih =>
    obtain ⟨k', v'⟩ := p
    simp only [diff_inner, List.filterMap_cons] at ih ⊢
    cases hq : dlookup refsk k' with
    | none =>
      by_cases hk : k' = r
      · subst hk; simp [hq, ih, dlookup]
      · simpa [dlookup, hk] using ih
    | some refv =>
      by_cases hk : k' = r
      · subst hk; simp [hq, dlookup]
      · simpa [dlookup, hk] using ih

theorem lookup_diff_mid (reference : Table3 Flt) (key : String) (value : Table2 Flt)
    (s : String) :
    dlookup (diff_mid reference key value) s
      = ((dlookup reference key).bind fun refk => dlookup refk s).bind fun refsk =>
          (dlookup value s).map fun sv => diff_inner refsk sv := by
  induction value with
  | nil =>
    cases (dlookup reference key).bind fun refk => dlookup refk s <;>
      simp [diff_mid, dlookup]
  | cons p rest ih =>
    obtain ⟨k', v'⟩ := p
    simp only [diff_mid, List.filterMap_cons] at ih ⊢
    cases hq : (dlookup reference key).bind fun refk => dlookup refk k' with
    | none =>
      by_cases hk : k' = s
      · subst hk
        simp only [hq] at ih ⊢
        simp at ih ⊢
        exact ih
      · simpa [dlookup, hk] using ih
    | some refsk =>
      by_cases hk : k' = s
      · subst hk; simp [hq, dlookup]
      · simpa [dlookup, hk] using ih

theorem lookup_compute_difference (base reference : Table3 Flt) (f : String) :
    dlookup (compute_difference base reference) f
      = (dlookup base f).map (diff_mid reference f) := by
  induction base with
  | nil => rfl
  | cons p rest ih =>
    obtain ⟨k', v'⟩ := p
    simp only [compute_difference, List.map_cons] at ih ⊢
    by_cases hk : k' = f
    · subst hk; simp [dlookup]
    · simpa [dlookup, hk] using ih

/-! ## Claim C3 -/

/-- Claim C3: the Bias Model (`compute_difference`) contains a
(variable, season, region) triple exactly when the triple is present in both
the base table and the reference table at all three nesting levels, and the
stored value is simulated minus reference; triples missing from either side
are omitted (no error, no placeholder). -/
theorem c3_compute_difference_membership (base reference : Table3 Flt) (f s r : String) :
    tget (compute_difference base reference) f s r
      = (tget base f s r).bind (fun b => (tget reference f s r).map fun rv => Flt.sub b rv) ∧
    ((tget (compute_difference base reference) f s r).isSome
      ↔ (tget base f s r).isSome ∧ (tget reference f s r).isSome) := by
  have hmain : tget (compute_difference base reference) f s r
      = (tget base f s r).bind (fun b => (tget reference f s r).map fun rv => Flt.sub b rv) := by
    unfold tget
    rw [lookup_compute_difference]
    cases hbf : dlookup base f with
    | none => simp
    | some bv =>
      simp only [Option.map_some', Option.some_bind]
      rw [lookup_diff_mid]
      cases hrf : dlookup reference f with
      | none => cases hbs : dlookup bv s with
        | none => simp
        | some b2 => simp
      | some refk =>
        simp only [Option.some_bind]
        cases hrs : dlookup refk s with
        | none => cases hbs : dlookup bv s with
          | none => simp
          | some b2 => simp
        | some refsk =>
          simp only [Option.some_bind]
          cases hbs : dlookup bv s with
          | none => simp
          | some b2 =>
            simp only [Option.map_some', Option.some_bind]
            rw [lookup_diff_inner]
            cases hrr : dlookup refsk r with
            | none => cases dlookup b2 r <;> simp
            | some refv => cases dlookup b2 r <;> simp
  refine ⟨hmain, ?_⟩
  rw [hmain]
  cases tget base f s r <;> cases tget reference f s r <;> simp [Flt.sub]

/-! ## Claim C6 -/

/-- Claim C6: the Constraint Model function for parameter i evaluates to
`max_change - |change_i|`; that value is nonnegative exactly when
`|change_i| ≤ max_change_i`, and in the boundary case `|change_i| = max_change_i`
it is exactly zero. -/
theorem c6_constraint_nonneg_iff (diffmax : Dict ℚ) (params : List String) (i : ℕ)
    (x : ℕ → ℚ) (p : String) (m : ℚ)
    (hp : params.get? i = some p) (hm : dlookup diffmax p = some m) :
    constraint_fun diffmax params i x = some (m - |x i|) ∧
    (0 ≤ m - |x i| ↔ |x i| ≤ m) ∧ (|x i| = m → m - |x i| = 0) := by
  refine ⟨?_, sub_nonneg, fun h => by rw [h, sub_self]⟩
  simp only [constraint_fun]
  rw [hp]
  simp [hm]

/-- Witness for C6 at a concrete input. -/
theorem c6_witness :
    constraint_fun [("a", (2:ℚ))] ["a"] 0 (fun _ => 1) = some (2 - |(1:ℚ)|) ∧
    ((0:ℚ) ≤ 2 - |(1:ℚ)| ↔ |(1:ℚ)| ≤ 2) ∧ (|(1:ℚ)| = 2 → 2 - |(1:ℚ)| = 0) :=
  c6_constraint_nonneg_iff [("a", (2:ℚ))] ["a"] 0 (fun _ => 1) "a" 2 (by rfl) (by simp [dlookup])

/-! ## Claim C8 -/

theorem build_diffmax_lookup (inc : ℚ) (params : List String) :
    ∀ (vals : List ℚ) (i : ℕ) (p : String) (v : ℚ),
      params.Nodup → params.get? i = some p → vals.get? i = some v →
      dlookup (build_diffmax params vals inc) p = some (v * inc) := by
  induction params with
  | nil => intro vals i p v _ hp _; simp [List.get?] at hp
  | cons q ps ih =>
    intro vals i p v hnd hp hv
    cases vals with
    | nil => simp [List.get?] at hv
    | cons w ws =>
      cases i with
      | zero =>
        simp only [List.get?, Option.some.injEq] at hp hv
        subst hp; subst hv
        simp [build_diffmax, dlookup]
      | succ j =>
        simp only [List.get?] at hp hv
        have hqp : q ≠ p := by
          intro h; subst h
          exact (List.nodup_cons.mp hnd).1 (List.get?_mem hp)
        simp only [build_diffmax, List.zip_cons_cons, List.map_cons, dlookup, if_neg hqp]
        exact ih ws j p v (List.nodup_cons.mp hnd).2 hp hv

/-- Counterexample to claim C8: for a parameter with a negative current value
(here -1) and a positive fractional increment (1/10), the derived max change
is -1/10, which is strictly negative — the claimed invariant `max_change ≥ 0`
fails on the code, which performs no validation. -/
theorem c8_counterexample :
    dlookup (build_diffmax ["a"] [(-1 : ℚ)] (1/10)) "a" = some (-(1/10)) ∧
    ¬ (0 ≤ (-(1/10) : ℚ)) := by
  constructor
  · norm_num [build_diffmax, dlookup]
  · norm_num

/-- Claim C8 (amended): every parameter's derived max change equals its current
value times the configured fractional increment; it is nonnegative provided the
current value and the increment are both nonnegative (the code checks neither). -/
theorem c8_diffmax_eq (params : List String) (vals : List ℚ) (inc : ℚ) (i : ℕ)
    (p : String) (v : ℚ)
    (hnd : params.Nodup) (hp : params.get? i = some p) (hv : vals.get? i = some v) :
    dlookup (build_diffmax params vals inc) p = some (v * inc) ∧
    (0 ≤ v → 0 ≤ inc → 0 ≤ v * inc) :=
  ⟨build_diffmax_lookup inc params vals i p v hnd hp hv, fun h1 h2 => mul_nonneg h1 h2⟩

/-- Witness for C8 (amended) at a concrete input. -/
theorem c8_witness :
    dlookup (build_diffmax ["b"] [(3 : ℚ)] (1/10)) "b" = some (3 * (1/10)) ∧
    (0 ≤ (3:ℚ) → 0 ≤ (1/10 : ℚ) → 0 ≤ (3 : ℚ) * (1/10)) :=
  c8_diffmax_eq ["b"] [(3 : ℚ)] (1/10) 0 "b" 3 (by simp) (by rfl) (by rfl)

/-! ## Claim C10 -/

/-- Claim C10: `get_arg` returns the supplied default whenever the parsed
argument value is falsy — in particular for explicit `0`, `0.0` or `""`
command-line values, which are therefore silently replaced by the default —
and returns the parsed value itself only when it is truthy. -/
theorem c10_get_arg_falsy (args : String → PyVal) (arg : String) (default : PyVal) :
    (truthy (PyVal.int 0) = false ∧ truthy (PyVal.float 0) = false ∧
      truthy (PyVal.str "") = false) ∧
    (truthy (args arg) = false → get_arg args arg default = default) ∧
    (truthy (args arg) = true → get_arg args arg default = args arg) := by
  refine ⟨⟨by simp [truthy], by simp [truthy], by simp [truthy]⟩,
    fun h => by simp [get_arg, h], fun h => by simp [get_arg, h]⟩

/-- Witness for C10: an explicit `--maxiter 0` is replaced by the default 10000. -/
theorem c10_witness :
    get_arg (fun _ => PyVal.int 0) "maxiter" (PyVal.int 10000) = PyVal.int 10000 :=
  (c10_get_arg_falsy (fun _ => PyVal.int 0) "maxiter" (PyVal.int 10000)).2.1 (by decide)

/-! ## Claim C2 -/

theorem param_terms_none_of_zero_ref (changes : ℕ → ℚ) (values refpars : Dict ℚ)
    (p : String) (href : dlookup refpars p = some 0) :
    ∀ (ps : List String) (i : ℕ), p ∈ ps →
      param_terms changes values refpars i ps = Option.none := by
  intro ps
  induction ps with
  | nil => intro i h; simp at h
  | cons q rest ih =>
    intro i hmem
    simp only [param_terms]
    cases hq : dlookup refpars q with
    | none => rfl
    | some rq =>
      simp only [Option.some_bind]
      by_cases hrq : rq = 0
      · subst hrq; simp
      · have hpq : p ≠ q := by
          intro h; subst h; rw [href] at hq
          injection hq with h2; exact hrq h2.symm
        have hrest : p ∈ rest := by
          rcases List.mem_cons.mp hmem with h | h
          · exact absurd h hpq
          · exact h
        rw [if_neg hrq]
        cases hv : dlookup values q with
        | none => rfl
        | some v => simp [ih (i + 1) hrest]

theorem F64.add_finite_iff (a b : F64) :
    (F64.add a b).isFinite = true ↔ a.isFinite = true ∧ b.isFinite = true := by
  cases a <;> cases b <;> simp [F64.add, F64.isFinite]

theorem F64.foldl_add_nonfinite : ∀ (ts : List F64) (acc : F64),
    acc.isFinite = false → (List.foldl F64.add acc ts).isFinite = false := by
  intro ts
  induction ts with
  | nil => intro acc h; simpa using h
  | cons t ts' ih =>
    intro acc h
    rw [List.foldl_cons]
    apply ih
    cases hf : (F64.add acc t).isFinite
    · rfl
    · have h2 := (F64.add_finite_iff acc t).mp hf
      rw [h2.1] at h
      exact absurd h (by simp)

theorem F64.foldl_add_nonfinite_mem : ∀ (ts : List F64) (acc : F64) (t : F64),
    t ∈ ts → t.isFinite = false → (List.foldl F64.add acc ts).isFinite = false := by
  intro ts
  induction ts with
  | nil => intro acc t h; simp at h
  | cons t0 ts' ih =>
    intro acc t hmem hnf
    rw [List.foldl_cons]
    rcases List.mem_cons.mp hmem with rfl | hrest
    · apply F64.foldl_add_nonfinite
      cases hf : (F64.add acc t).isFinite
      · rfl
      · have h2 := (F64.add_finite_iff acc t).mp hf
        rw [h2.2] at hnf
        exact absurd hnf (by simp)
    · exact ih (F64.add acc t0) t hrest hnf

theorem npDiv_zero_nonfinite (y : ℚ) : (npDiv y 0).isFinite = false := by
  unfold npDiv
  rw [if_pos rfl]
  split_ifs <;> simp [F64.isFinite]

theorem npDiv_zero_sq_nonfinite (y : ℚ) : ((npDiv y 0).sq).isFinite = false := by
  unfold npDiv
  rw [if_pos rfl]
  split_ifs <;> simp [F64.sq, F64.isFinite]

theorem np_param_terms_nonfinite (changes : ℕ → ℚ) (values refpars : Dict ℚ) (p : String)
    (href : dlookup refpars p = some 0) :
    ∀ (ps : List String) (i : ℕ) (ts : List F64),
      p ∈ ps → np_param_terms changes values refpars i ps = some ts →
      ∃ t ∈ ts, t.isFinite = false := by
  intro ps
  induction ps with
  | nil => intro i ts h; simp at h
  | cons q rest ih =>
    intro i ts hmem h
    simp only [np_param_terms] at h
    cases hr : dlookup refpars q with
    | none => rw [hr] at h; simp at h
    | some rq =>
      rw [hr] at h
      simp only [Option.some_bind] at h
      cases hv : dlookup values q with
      | none => rw [hv] at h; simp at h
      | some v0 =>
        rw [hv] at h
        cases hrec : np_param_terms changes values refpars (i + 1) rest with
        | none => rw [hrec] at h; simp at h
        | some ts' =>
          rw [hrec] at h
          simp only [Option.some_bind, Option.map_some', Option.some.injEq] at h
          rcases List.mem_cons.mp hmem with rfl | hrest
          · rw [href] at hr
            injection hr with hr2
            refine ⟨(npDiv (rq - (v0 + changes i)) rq).sq, ?_, ?_⟩
            · rw [← h]; exact List.mem_cons_self _ _
            · rw [← hr2]; exact npDiv_zero_sq_nonfinite _
          · obtain ⟨t, ht, hnf⟩ := ih (i + 1) ts' hrest hrec
            exact ⟨t, by rw [← h]; exact List.mem_cons_of_mem _ ht, hnf⟩

/-- `param_terms` is the finite fragment of the float64 model: whenever the
ℚ-valued evaluation produces a term list, the float64 evaluation produces the
same terms as finite values. -/
theorem param_terms_np_agree (changes : ℕ → ℚ) (values refpars : Dict ℚ) :
    ∀ (ps : List String) (i : ℕ) (ts : List ℚ),
      param_terms changes values refpars i ps = some ts →
      np_param_terms changes values refpars i ps = some (ts.map F64.fin) := by
  intro ps
  induction ps with
  | nil =>
    intro i ts h
    simp only [param_terms, Option.some.injEq] at h
    rw [← h]
    rfl
  | cons q rest ih =>
    intro i ts h
    simp only [param_terms] at h
    cases hr : dlookup refpars q with
    | none => rw [hr] at h; simp at h
    | some r0 =>
      rw [hr] at h
      simp only [Option.some_bind] at h
      by_cases hr0 : r0 = 0
      · rw [if_pos hr0] at h; simp at h
      · rw [if_neg hr0] at h
        cases hv : dlookup values q with
        | none => rw [hv] at h; simp at h
        | some v0 =>
          rw [hv] at h
          cases hrec : param_terms changes values refpars (i + 1) rest with
          | none => rw [hrec] at h; simp at h
          | some ts' =>
            rw [hrec] at h
            simp only [Option.some_bind, Option.map_some', Option.some.injEq] at h
            simp only [np_param_terms, hr, hv, Option.some_bind,
              ih (i + 1) ts' hrec, Option.map_some']
            rw [← h]
            simp [npDiv, if_neg hr0, F64.sq]

/-- Counterexample to claim C2: with one parameter "p" whose reference value is
zero (and current value 1), the run is not aborted before the optimization loop
(the only pre-loop abort is the experiment-name check, which passes); instead
of the claimed eager fatal error, the penalty term evaluates under numpy
float64 semantics to the non-finite value inf at its very first evaluation
inside the search (RuntimeWarning, no raise, no abort), so it never has a
finite value; likewise a zero current value makes the report's relative-change
entry the non-finite inf rather than an error. -/
theorem c2_counterexample :
    main_preopt_abort (PyVal.str "e") = false ∧
    np_param_difference (fun _ => 0) ["p"] [("p", (1:ℚ))] [("p", 0)] = some F64.inf ∧
    F64.inf.isFinite = false ∧
    np_relative_change 1 0 = F64.inf ∧
    param_difference (fun _ => 0) ["p"] [("p", (1:ℚ))] [("p", 0)] = Option.none := by
  refine ⟨by decide, ?_, by rfl, ?_, ?_⟩
  · norm_num [np_param_difference, np_param_terms, dlookup, npDiv, F64.sq, F64.add]
  · norm_num [np_relative_change, npDiv]
  · norm_num [param_difference, param_terms, dlookup]

/-- Claim C2 (amended): no eager validation of degenerate parameters exists.
For any run whose experiment name is truthy the program reaches the
optimization loop; if some parameter's reference value is zero nothing raises —
every evaluation of the penalty term yields a non-finite float64 (inf or NaN,
with a numpy RuntimeWarning), so the penalty never has a finite value — and a
zero current value makes the report's relative-change entry non-finite rather
than an error. -/
theorem c2_no_eager_validation (exp : PyVal) (changes : ℕ → ℚ) (params : List String)
    (values refpars : Dict ℚ) (p : String) (c : ℚ) (x : F64)
    (hexp : truthy exp = true) (hmem : p ∈ params) (href : dlookup refpars p = some 0)
    (hx : np_param_difference changes params values refpars = some x) :
    main_preopt_abort exp = false ∧
    x.isFinite = false ∧
    param_difference changes params values refpars = Option.none ∧
    (np_relative_change c 0).isFinite = false := by
  refine ⟨by simp [main_preopt_abort, hexp], ?_, ?_, npDiv_zero_nonfinite c⟩
  · unfold np_param_difference at hx
    cases hts : np_param_terms changes values refpars 0 params with
    | none => rw [hts] at hx; simp at hx
    | some ts =>
      rw [hts] at hx
      simp only [Option.map_some', Option.some.injEq] at hx
      obtain ⟨t, ht, hnf⟩ :=
        np_param_terms_nonfinite changes values refpars p href params 0 ts hmem hts
      rw [← hx]
      exact F64.foldl_add_nonfinite_mem ts (F64.fin 0) t ht hnf
  · simp [param_difference,
      param_terms_none_of_zero_ref changes values refpars p href params 0 hmem]

/-- Witness for C2 (amended) at a concrete input. -/
theorem c2_witness :
    main_preopt_abort (PyVal.str "tune1") = false ∧
    F64.inf.isFinite = false ∧
    param_difference (fun _ => 0) ["q"] [("q", (2:ℚ))] [("q", 0)] = Option.none ∧
    (np_relative_change 2 0).isFinite = false :=
  c2_no_eager_validation (PyVal.str "tune1") (fun _ => 0) ["q"] [("q", 2)] [("q", 0)] "q" 2
    F64.inf (by decide) (by simp) (by simp [dlookup])
    (by norm_num [np_param_difference, np_param_terms, dlookup, npDiv, F64.sq, F64.add])

/-! ## Claim C4 -/

/-- Claim C4: a (flux, season, region) triple whose bias entry is absent or NaN
contributes nothing to the Objective Function: the loop body returns the
accumulator unchanged (skipped, not raised), and inserting such a triple
anywhere into the iterated key space — which is what adding the corresponding
sensitivity entry under `params[0]` does, whatever sensitivity data any
parameter carries for it — leaves the accumulated flux term unchanged, for
every Change Vector. -/
theorem c4_missing_bias_skipped (changes : ℕ → ℚ) (params : List String)
    (sens : Dict (Table3 (List ℚ))) (diff : Table3 Flt) (wf ws wr : Dict ℚ)
    (f s r : String) (hbias : diffGet diff f s r = Option.none) :
    (∀ acc : ℚ, flux_step changes params sens diff wf ws wr acc (f, s, r) = some acc) ∧
    (∀ (l1 l2 : List (String × String × String)) (acc : ℚ),
      List.foldlM (flux_step changes params sens diff wf ws wr) acc (l1 ++ (f, s, r) :: l2)
        = List.foldlM (flux_step changes params sens diff wf ws wr) acc (l1 ++ l2)) := by
  have hstep : ∀ acc : ℚ,
      flux_step changes params sens diff wf ws wr acc (f, s, r) = some acc := by
    intro acc
    simp [flux_step, hbias]
  refine ⟨hstep, ?_⟩
  intro l1
  induction l1 with
  | nil =>
    intro l2 acc
    simp [List.foldlM_cons, hstep]
  | cons t0 l1' ih =>
    intro l2 acc
    simp only [List.cons_append, List.foldlM_cons]
    cases flux_step changes params sens diff wf ws wr acc t0 with
    | none => rfl
    | some acc' => simpa using ih l2 acc'

/-- Witness for C4 at a concrete input: the sensitivity table carries an entry
for the triple ("u","ALL","G"), but the bias table has none, so the triple is
skipped and does not change the accumulated flux term. -/
theorem c4_witness :
    (∀ acc : ℚ, flux_step (fun _ => 1) ["a"] [("a", [("u", [("ALL", [("G", [(5:ℚ)])])])])]
      [("t", [("ALL", [("G", some (1:ℚ))])])] [("t", 1)] [("ALL", 1)] [("G", 1)]
      acc ("u", "ALL", "G") = some acc) ∧
    (∀ (l1 l2 : List (String × String × String)) (acc : ℚ),
      List.foldlM (flux_step (fun _ => 1) ["a"] [("a", [("u", [("ALL", [("G", [(5:ℚ)])])])])]
          [("t", [("ALL", [("G", some (1:ℚ))])])] [("t", 1)] [("ALL", 1)] [("G", 1)]) acc
          (l1 ++ ("u", "ALL", "G") :: l2)
        = List.foldlM (flux_step (fun _ => 1) ["a"] [("a", [("u", [("ALL", [("G", [(5:ℚ)])])])])]
          [("t", [("ALL", [("G", some (1:ℚ))])])] [("t", 1)] [("ALL", 1)] [("G", 1)]) acc
          (l1 ++ l2)) :=
  c4_missing_bias_skipped (fun _ => 1) ["a"] [("a", [("u", [("ALL", [("G", [(5:ℚ)])])])])]
    [("t", [("ALL", [("G", some (1:ℚ))])])] [("t", 1)] [("ALL", 1)] [("G", 1)]
    "u" "ALL" "G" (by simp [diffGet, dlookup])

/-! ## Claim C1 -/

theorem flux_change_zero (sens : Dict (Table3 (List ℚ))) (f s r : String) :
    ∀ (ps : List String) (i : ℕ) (c : ℚ),
      flux_change (fun _ => 0) sens f s r i ps = some c → c = 0 := by
  intro ps
  induction ps with
  | nil =>
    intro i c h
    simp [flux_change] at h
    exact h.symm
  | cons q rest ih =>
    intro i c h
    simp only [flux_change] at h
    cases hq : sensLookup sens q f s r with
    | none => rw [hq] at h; simp at h
    | some cv =>
      rw [hq] at h
      cases hrec : flux_change (fun _ => 0) sens f s r (i + 1) rest with
      | none => rw [hrec] at h; simp at h
      | some rs =>
        rw [hrec] at h
        simp only [Option.map_some', Option.some_bind, Option.some.injEq] at h
        rw [← h, ih (i + 1) rs hrec]
        ring

/-- Claim C1: at the all-zero Change Vector every per-triple flux_change is
zero, so whenever the flux term of `objective_function` evaluates to a value,
that value is exactly the spec's weighted sum of squared current biases over
the iterated triples with a defined bias entry, with no sensitivity
contribution. -/
theorem c1_zero_changes_flux_term (params : List String)
    (sens : Dict (Table3 (List ℚ))) (diff : Table3 Flt) (wf ws wr : Dict ℚ) (t : ℚ)
    (h : flux_term (fun _ => 0) params sens diff wf ws wr = some t) :
    spec_zero_flux_sum params sens diff wf ws wr = some t := by
  have hfold : ∀ (l : List (String × String × String)) (acc out : ℚ),
      List.foldlM (flux_step (fun _ => 0) params sens diff wf ws wr) acc l = some out →
      List.foldlM (spec_zero_step diff wf ws wr) acc l = some out := by
    intro l
    induction l with
    | nil => intro acc out h0; simpa using h0
    | cons t0 l' ih =>
      intro acc out h0
      rw [List.foldlM_cons] at h0 ⊢
      cases hstep : flux_step (fun _ => 0) params sens diff wf ws wr acc t0 with
      | none => rw [hstep] at h0; simp at h0
      | some acc' =>
        rw [hstep] at h0
        have h1 : List.foldlM (flux_step (fun _ => 0) params sens diff wf ws wr) acc' l'
            = some out := h0
        have hspec : spec_zero_step diff wf ws wr acc t0 = some acc' := by
          unfold flux_step at hstep
          unfold spec_zero_step
          cases hd : diffGet diff t0.1 t0.2.1 t0.2.2 with
          | none => rw [hd] at hstep; simpa using hstep
          | some d =>
            rw [hd] at hstep
            cases hfc : flux_change (fun _ => 0) sens t0.1 t0.2.1 t0.2.2 0 params with
            | none => rw [hfc] at hstep; simp at hstep
            | some fc =>
              rw [hfc] at hstep
              rw [flux_change_zero sens t0.1 t0.2.1 t0.2.2 params 0 fc hfc] at hstep
              simpa using hstep
        rw [hspec]
        exact ih acc' out h1
  unfold flux_term at h
  unfold spec_zero_flux_sum
  cases hp0 : params.head? with
  | none => rw [hp0] at h; simp at h
  | some p0 =>
    rw [hp0] at h
    simp only [Option.some_bind] at h ⊢
    cases hs0 : dlookup sens p0 with
    | none => rw [hs0] at h; simp at h
    | some sens0 =>
      rw [hs0] at h
      simp only [Option.some_bind] at h ⊢
      exact hfold _ 0 t h

/-- Witness for C1 at a concrete input: one parameter, one triple with bias 1/2
and sensitivity -10; at zero changes the flux term is (1/2)^2 = 1/4, equal to
the spec-side weighted sum of squared biases. -/
theorem c1_witness :
    flux_term (fun _ => 0) ["a"] [("a", [("t", [("ALL", [("G", [(-10:ℚ)])])])])]
      [("t", [("ALL", [("G", some (1/2))])])] [("t", 1)] [("ALL", 1)] [("G", 1)]
      = some (1/4) ∧
    spec_zero_flux_sum ["a"] [("a", [("t", [("ALL", [("G", [(-10:ℚ)])])])])]
      [("t", [("ALL", [("G", some (1/2))])])] [("t", 1)] [("ALL", 1)] [("G", 1)]
      = some (1/4) :=
  ⟨by norm_num [flux_term, flux_step, flux_change, sens_triples, sensLookup, tget, diffGet, dlookup],
   c1_zero_changes_flux_term ["a"] [("a", [("t", [("ALL", [("G", [(-10:ℚ)])])])])]
     [("t", [("ALL", [("G", some (1/2))])])] [("t", 1)] [("ALL", 1)] [("G", 1)] (1/4)
     (by norm_num [flux_term, flux_step, flux_change, sens_triples, sensLookup, tget, diffGet, dlookup])⟩

/-! ## Claim C5 -/

theorem flux_step_nonneg (changes : ℕ → ℚ) (params : List String)
    (sens : Dict (Table3 (List ℚ))) (diff : Table3 Flt) (wf ws wr : Dict ℚ)
    (hwf : ∀ kv ∈ wf, 0 ≤ kv.2) (hws : ∀ kv ∈ ws, 0 ≤ kv.2) (hwr : ∀ kv ∈ wr, 0 ≤ kv.2)
    (acc out : ℚ) (t : String × String × String)
    (h : flux_step changes params sens diff wf ws wr acc t = some out)
    (hacc : 0 ≤ acc) : 0 ≤ out := by
  unfold flux_step at h
  cases hd : diffGet diff t.1 t.2.1 t.2.2 with
  | none =>
    rw [hd] at h
    injection h with h2
    exact h2 ▸ hacc
  | some d =>
    rw [hd] at h
    cases hfc : flux_change changes sens t.1 t.2.1 t.2.2 0 params with
    | none => rw [hfc] at h; simp at h
    | some fc =>
      rw [hfc] at h
      cases ha : dlookup wf t.1 with
      | none => rw [ha] at h; simp at h
      | some a =>
        rw [ha] at h
        cases hb : dlookup wr t.2.2 with
        | none => rw [hb] at h; simp at h
        | some b =>
          rw [hb] at h
          cases hc : dlookup ws t.2.1 with
          | none => rw [hc] at h; simp at h
          | some c =>
            rw [hc] at h
            simp only [Option.some_bind, Option.some.injEq] at h
            have hA : 0 ≤ a := hwf _ (dlookup_mem ha)
            have hB : 0 ≤ b := hwr _ (dlookup_mem hb)
            have hC : 0 ≤ c := hws _ (dlookup_mem hc)
            rw [← h]
            exact add_nonneg hacc
              (mul_nonneg (mul_nonneg (mul_nonneg hA hB) hC) (sq_nonneg _))

theorem foldlM_flux_nonneg (changes : ℕ → ℚ) (params : List String)
    (sens : Dict (Table3 (List ℚ))) (diff : Table3 Flt) (wf ws wr : Dict ℚ)
    (hwf : ∀ kv ∈ wf, 0 ≤ kv.2) (hws : ∀ kv ∈ ws, 0 ≤ kv.2) (hwr : ∀ kv ∈ wr, 0 ≤ kv.2) :
    ∀ (l : List (String × String × String)) (acc out : ℚ),
      List.foldlM (flux_step changes params sens diff wf ws wr) acc l = some out →
      0 ≤ acc → 0 ≤ out := by
  intro l
  induction l with
  | nil =>
    intro acc out h hacc
    simp only [List.foldlM_nil] at h
    injection h with h2
    exact h2 ▸ hacc
  | cons t0 l' ih =>
    intro acc out h hacc
    rw [List.foldlM_cons] at h
    cases hstep : flux_step changes params sens diff wf ws wr acc t0 with
    | none => rw [hstep] at h; simp at h
    | some acc' =>
      rw [hstep] at h
      have h1 : List.foldlM (flux_step changes params sens diff wf ws wr) acc' l'
          = some out := h
      exact ih acc' out h1
        (flux_step_nonneg changes params sens diff wf ws wr hwf hws hwr acc acc' t0 hstep hacc)

theorem param_terms_nonneg (changes : ℕ → ℚ) (values refpars : Dict ℚ) :
    ∀ (ps : List String) (i : ℕ) (ts : List ℚ),
      param_terms changes values refpars i ps = some ts → ∀ q ∈ ts, 0 ≤ q := by
  intro ps
  induction ps with
  | nil =>
    intro i ts h q hq
    simp only [param_terms, Option.some.injEq] at h
    rw [← h] at hq
    simp at hq
  | cons p0 rest ih =>
    intro i ts h q hq
    simp only [param_terms] at h
    cases hr : dlookup refpars p0 with
    | none => rw [hr] at h; simp at h
    | some r0 =>
      rw [hr] at h
      simp only [Option.some_bind] at h
      by_cases hr0 : r0 = 0
      · rw [if_pos hr0] at h; simp at h
      · rw [if_neg hr0] at h
        cases hv : dlookup values p0 with
        | none => rw [hv] at h; simp at h
        | some v0 =>
          rw [hv] at h
          cases hrec : param_terms changes values refpars (i + 1) rest with
          | none => rw [hrec] at h; simp at h
          | some ts' =>
            rw [hrec] at h
            simp only [Option.some_bind, Option.map_some', Option.some.injEq] at h
            rw [← h] at hq
            rcases List.mem_cons.mp hq with h1 | h1
            · rw [h1]; exact sq_nonneg _
            · exact ih (i + 1) ts' hrec q h1

theorem param_difference_nonneg (changes : ℕ → ℚ) (params : List String)
    (values refpars : Dict ℚ) (pd : ℚ)
    (h : param_difference changes params values refpars = some pd) : 0 ≤ pd := by
  unfold param_difference at h
  cases hts : param_terms changes values refpars 0 params with
  | none => rw [hts] at h; simp at h
  | some ts =>
    rw [hts] at h
    simp only [Option.map_some', Option.some.injEq] at h
    rw [← h]
    exact List.sum_nonneg (param_terms_nonneg changes values refpars params 0 ts hts)

/-- Claim C5: the Objective Function is nonnegative — for every real Change
Vector and every valid model data set (all weights nonnegative, penalty
coefficient positive, and the evaluation defined, which requires nonzero
reference values and all needed sensitivity entries), the returned score
is greater than or equal to zero. -/
theorem c5_objective_nonneg (changes : ℕ → ℚ) (params : List String)
    (values refpars : Dict ℚ) (penalty : ℚ) (sens : Dict (Table3 (List ℚ)))
    (diff : Table3 Flt) (wf ws wr : Dict ℚ) (v : ℚ)
    (hwf : ∀ kv ∈ wf, 0 ≤ kv.2) (hws : ∀ kv ∈ ws, 0 ≤ kv.2) (hwr : ∀ kv ∈ wr, 0 ≤ kv.2)
    (hpen : 0 < penalty)
    (h : objective_function changes params values refpars penalty sens diff wf ws wr = some v) :
    0 ≤ v := by
  unfold objective_function at h
  cases ht : flux_term changes params sens diff wf ws wr with
  | none => rw [ht] at h; simp at h
  | some td =>
    rw [ht] at h
    simp only [Option.some_bind] at h
    cases hp : param_difference changes params values refpars with
    | none => rw [hp] at h; simp at h
    | some pd =>
      rw [hp] at h
      simp only [Option.map_some', Option.some.injEq] at h
      have htd : 0 ≤ td := by
        unfold flux_term at ht
        cases hp0 : params.head? with
        | none => rw [hp0] at ht; simp at ht
        | some p0 =>
          rw [hp0] at ht
          simp only [Option.some_bind] at ht
          cases hs0 : dlookup sens p0 with
          | none => rw [hs0] at ht; simp at ht
          | some sens0 =>
            rw [hs0] at ht
            simp only [Option.some_bind] at ht
            exact foldlM_flux_nonneg changes params sens diff wf ws wr hwf hws hwr
              (sens_triples sens0) 0 td ht le_rfl
      have hpd : 0 ≤ pd := param_difference_nonneg changes params values refpars pd hp
      rw [← h]
      exact add_nonneg htd (mul_nonneg hpd hpen.le)

/-- Witness for C5 at a concrete input: score 1, which is nonnegative. -/
theorem c5_witness :
    objective_function (fun _ => 0) ["a"] [("a", (1:ℚ))] [("a", 1)] 1
      [("a", [("t", [("ALL", [("G", [(1:ℚ)])])])])]
      [("t", [("ALL", [("G", some (1:ℚ))])])] [("t", 1)] [("ALL", 1)] [("G", 1)]
      = some 1 ∧ (0:ℚ) ≤ 1 :=
  have hobj : objective_function (fun _ => 0) ["a"] [("a", (1:ℚ))] [("a", 1)] 1
      [("a", [("t", [("ALL", [("G", [(1:ℚ)])])])])]
      [("t", [("ALL", [("G", some (1:ℚ))])])] [("t", 1)] [("ALL", 1)] [("G", 1)]
      = some 1 := by
    norm_num [objective_function, flux_term, flux_step, flux_change, sens_triples,
      sensLookup, tget, diffGet, dlookup, param_difference, param_terms]
  ⟨hobj, c5_objective_nonneg (fun _ => 0) ["a"] [("a", (1:ℚ))] [("a", 1)] 1
    [("a", [("t", [("ALL", [("G", [(1:ℚ)])])])])]
    [("t", [("ALL", [("G", some (1:ℚ)) ])])] [("t", 1)] [("ALL", 1)] [("G", 1)] 1
    (by norm_num) (by norm_num) (by norm_num) (by norm_num) hobj⟩

/-! ## Claim C7 -/

theorem param_terms_sum_zero_iff (changes : ℕ → ℚ) (values refpars : Dict ℚ) :
    ∀ (ps : List String) (i : ℕ) (ts : List ℚ),
      param_terms changes values refpars i ps = some ts →
      (ts.sum = 0 ↔ ∀ (j : ℕ) (q : String), ps.get? j = some q →
        ∀ (ref v : ℚ), dlookup refpars q = some ref → dlookup values q = some v →
          v + changes (i + j) = ref) := by
  intro ps
  induction ps with
  | nil =>
    intro i ts h
    simp only [param_terms, Option.some.injEq] at h
    rw [← h]
    simp only [List.sum_nil]
    constructor
    · intro _ j q hj
      simp [List.get?] at hj
    · intro _
      trivial
  | cons p0 rest ih =>
    intro i ts h
    simp only [param_terms] at h
    cases hr : dlookup refpars p0 with
    | none => rw [hr] at h; simp at h
    | some r0 =>
      rw [hr] at h
      simp only [Option.some_bind] at h
      by_cases hr0 : r0 = 0
      · rw [if_pos hr0] at h; simp at h
      · rw [if_neg hr0] at h
        cases hv : dlookup values p0 with
        | none => rw [hv] at h; simp at h
        | some v0 =>
          rw [hv] at h
          cases hrec : param_terms changes values refpars (i + 1) rest with
          | none => rw [hrec] at h; simp at h
          | some ts' =>
            rw [hrec] at h
            simp only [Option.some_bind, Option.map_some', Option.some.injEq] at h
            rw [← h]
            simp only [List.sum_cons]
            have hterm_nonneg : 0 ≤ ((r0 - (v0 + changes i)) / r0) ^ 2 := sq_nonneg _
            have hsum_nonneg : 0 ≤ ts'.sum :=
              List.sum_nonneg (param_terms_nonneg changes values refpars rest (i + 1) ts' hrec)
            rw [add_eq_zero_iff_of_nonneg hterm_nonneg hsum_nonneg]
            have hterm_iff : ((r0 - (v0 + changes i)) / r0) ^ 2 = 0 ↔ v0 + changes i = r0 := by
              rw [sq_eq_zero_iff, div_eq_zero_iff, sub_eq_zero]
              constructor
              · rintro (h1 | h1)
                · exact h1.symm
                · exact absurd h1 hr0
              · intro h1; exact Or.inl h1.symm
            rw [hterm_iff, ih (i + 1) ts' hrec]
            constructor
            · rintro ⟨hhead, htail⟩ j q hj ref v href hval
              cases j with
              | zero =>
                simp only [List.get?, Option.some.injEq] at hj
                subst hj
                rw [href] at hr
                injection hr with hr2
                rw [hval] at hv
                injection hv with hv2
                rw [Nat.add_zero, hv2, hr2]
                exact hhead
              | succ j' =>
                simp only [List.get?] at hj
                have := htail j' q hj ref v href hval
                have hidx : i + (j' + 1) = i + 1 + j' := by omega
                rw [hidx]
                exact this
            · intro hall
              constructor
              · have := hall 0 p0 (by simp [List.get?]) r0 v0 hr hv
                rw [Nat.add_zero] at this
                exact this
              · intro j q hj ref v href hval
                have hidx : i + 1 + j = i + (j + 1) := by omega
                rw [hidx]
                exact hall (j + 1) q (by simpa [List.get?] using hj) ref v href hval

/-- Claim C7: the penalty term of the Objective Function is zero if and only if
every parameter's current value plus proposed change equals its reference value
exactly (reference values being nonzero wherever the evaluation is defined). -/
theorem c7_penalty_zero_iff (changes : ℕ → ℚ) (params : List String)
    (values refpars : Dict ℚ) (p : ℚ)
    (h : param_difference changes params values refpars = some p) :
    (p = 0 ↔ ∀ (j : ℕ) (q : String), params.get? j = some q →
      ∀ (ref v : ℚ), dlookup refpars q = some ref → dlookup values q = some v →
        v + changes j = ref) := by
  unfold param_difference at h
  cases hts : param_terms changes values refpars 0 params with
  | none => rw [hts] at h; simp at h
  | some ts =>
    rw [hts] at h
    simp only [Option.map_some', Option.some.injEq] at h
    rw [← h]
    have := param_terms_sum_zero_iff changes values refpars params 0 ts hts
    simpa using this

/-- Witness for C7 at a concrete input: one parameter with current value 2,
reference 3 and proposed change 1, whose penalty term is exactly zero. -/
theorem c7_witness :
    param_difference (fun _ => 1) ["a"] [("a", (2:ℚ))] [("a", 3)] = some 0 ∧
    ((0:ℚ) = 0 ↔ ∀ (j : ℕ) (q : String), (["a"] : List String).get? j = some q →
      ∀ (ref v : ℚ), dlookup [("a", (3:ℚ))] q = some ref →
        dlookup [("a", (2:ℚ))] q = some v → v + (fun _ => (1:ℚ)) j = ref) :=
  have hpd : param_difference (fun _ => 1) ["a"] [("a", (2:ℚ))] [("a", 3)] = some 0 := by
    norm_num [param_difference, param_terms, dlookup]
  ⟨hpd, c7_penalty_zero_iff (fun _ => 1) ["a"] [("a", (2:ℚ))] [("a", 3)] 0 hpd⟩

/-! ## Claim C9 -/

theorem flux_change_congr (changes : ℕ → ℚ) (sens sens' : Dict (Table3 (List ℚ)))
    (f s r : String) :
    ∀ (ps : List String) (i : ℕ),
      (∀ q ∈ ps, sensLookup sens q f s r = sensLookup sens' q f s r) →
      flux_change changes sens f s r i ps = flux_change changes sens' f s r i ps := by
  intro ps
  induction ps with
  | nil => intro i _; rfl
  | cons q rest ih =>
    intro i hag
    simp only [flux_change]
    rw [hag q (List.mem_cons_self q rest),
      ih (i + 1) (fun q' hq' => hag q' (List.mem_cons_of_mem _ hq'))]

theorem flux_step_congr (changes : ℕ → ℚ) (params : List String)
    (sens sens' : Dict (Table3 (List ℚ))) (diff : Table3 Flt) (wf ws wr : Dict ℚ)
    (t : String × String × String)
    (hag : ∀ q ∈ params, sensLookup sens q t.1 t.2.1 t.2.2 = sensLookup sens' q t.1 t.2.1 t.2.2)
    (acc : ℚ) :
    flux_step changes params sens diff wf ws wr acc t
      = flux_step changes params sens' diff wf ws wr acc t := by
  unfold flux_step
  cases diffGet diff t.1 t.2.1 t.2.2 with
  | none => rfl
  | some d => rw [flux_change_congr changes sens sens' t.1 t.2.1 t.2.2 params 0 hag]

theorem foldlM_flux_congr (changes : ℕ → ℚ) (params : List String)
    (sens sens' : Dict (Table3 (List ℚ))) (diff : Table3 Flt) (wf ws wr : Dict ℚ) :
    ∀ (l : List (String × String × String)) (acc : ℚ),
      (∀ t ∈ l, ∀ q ∈ params,
        sensLookup sens q t.1 t.2.1 t.2.2 = sensLookup sens' q t.1 t.2.1 t.2.2) →
      List.foldlM (flux_step changes params sens diff wf ws wr) acc l
        = List.foldlM (flux_step changes params sens' diff wf ws wr) acc l := by
  intro l
  induction l with
  | nil => intro acc _; rfl
  | cons t0 l' ih =>
    intro acc hag
    rw [List.foldlM_cons, List.foldlM_cons,
      flux_step_congr changes params sens sens' diff wf ws wr t0
        (hag t0 (List.mem_cons_self t0 l')) acc]
    cases flux_step changes params sens' diff wf ws wr acc t0 with
    | none => rfl
    | some acc' =>
      exact ih acc' (fun t ht q hq => hag t (List.mem_cons_of_mem _ ht) q hq)

/-- Claim C9: the flux term iterates only over the triples of
`sensitivity[params[0]]`.  Two sensitivity tables that agree on `params[0]`'s
table and on every lookup at those iterated triples yield the same Objective
Function value — so a triple appearing only in some other parameter's table
(and absent from `params[0]`'s key space) contributes nothing to the score for
any Change Vector, even when a defined bias entry exists for it. -/
theorem c9_flux_term_first_param_only (changes : ℕ → ℚ) (params : List String)
    (values refpars : Dict ℚ) (penalty : ℚ) (sens sens' : Dict (Table3 (List ℚ)))
    (diff : Table3 Flt) (wf ws wr : Dict ℚ) (p0 : String)
    (hp0 : params.head? = some p0)
    (hsame : dlookup sens p0 = dlookup sens' p0)
    (hag : ∀ t ∈ sens_triples ((dlookup sens p0).getD []), ∀ q ∈ params,
      sensLookup sens q t.1 t.2.1 t.2.2 = sensLookup sens' q t.1 t.2.1 t.2.2) :
    objective_function changes params values refpars penalty sens diff wf ws wr
      = objective_function changes params values refpars penalty sens' diff wf ws wr := by
  unfold objective_function
  have hft : flux_term changes params sens diff wf ws wr
      = flux_term changes params sens' diff wf ws wr := by
    unfold flux_term
    rw [hp0]
    simp only [Option.some_bind]
    rw [← hsame]
    cases hs0 : dlookup sens p0 with
    | none => rfl
    | some sens0 =>
      simp only [Option.some_bind]
      exact foldlM_flux_congr changes params sens sens' diff wf ws wr
        (sens_triples sens0) 0 (fun t ht q hq => hag t (by simpa [hs0] using ht) q hq)
  rw [hft]

/-- Witness for C9 at a concrete input: the second sensitivity table carries an
extra triple ("u","ALL","G") under parameter "b" only, with a defined bias for
"u"; the objective is unchanged. -/
theorem c9_witness :
    objective_function (fun _ => 1) ["a", "b"] [("a", (1:ℚ)), ("b", 1)]
      [("a", (1:ℚ)), ("b", 1)] 1
      [("a", [("t", [("ALL", [("G", [(2:ℚ)])])])]),
       ("b", [("t", [("ALL", [("G", [(3:ℚ)])])])])]
      [("t", [("ALL", [("G", some (1:ℚ))])]), ("u", [("ALL", [("G", some (1:ℚ))])])]
      [("t", 1), ("u", 1)] [("ALL", 1)] [("G", 1)]
    = objective_function (fun _ => 1) ["a", "b"] [("a", (1:ℚ)), ("b", 1)]
      [("a", (1:ℚ)), ("b", 1)] 1
      [("a", [("t", [("ALL", [("G", [(2:ℚ)])])])]),
       ("b", [("t", [("ALL", [("G", [(3:ℚ)])])]), ("u", [("ALL", [("G", [(5:ℚ)])])])])]
      [("t", [("ALL", [("G", some (1:ℚ))])]), ("u", [("ALL", [("G", some (1:ℚ))])])]
      [("t", 1), ("u", 1)] [("ALL", 1)] [("G", 1)] :=
  c9_flux_term_first_param_only (fun _ => 1) ["a", "b"] [("a", (1:ℚ)), ("b", 1)]
    [("a", (1:ℚ)), ("b", 1)] 1
    [("a", [("t", [("ALL", [("G", [(2:ℚ)])])])]),
     ("b", [("t", [("ALL", [("G", [(3:ℚ)])])])])]
    [("a", [("t", [("ALL", [("G", [(2:ℚ)])])])]),
     ("b", [("t", [("ALL", [("G", [(3:ℚ)])])]), ("u", [("ALL", [("G", [(5:ℚ)])])])])]
    [("t", [("ALL", [("G", some (1:ℚ))])]), ("u", [("ALL", [("G", some (1:ℚ))])])]
    [("t", 1), ("u", 1)] [("ALL", 1)] [("G", 1)] "a"
    (by rfl) (by simp [dlookup])
    (by simp [sens_triples, sensLookup, tget, dlookup])

end ECTuner
